import Mathlib

/-!
Shallow embedding of the LEAKER_RELATIONAL cardinality-estimation core:
`leaker/attack/relational_estimators/estimator.py` (the Naru-based
selectivity estimator), `leaker/attack/relational_estimators/eval.py`
(the evaluation harness), and `leaker/sql_interface/sql.py` (the SQL
connection layer).  Pure functions of the Python source become Lean
functions; stateful methods become explicit state passing together with
an event trace; exceptions become `Option`/`Except`.
-/

set_option maxHeartbeats 1000000

namespace Leaker

/-- `matchHead pat s` is true when `pat` occurs contiguously at the head
of `s` (helper for the Python substring test). -/
def matchHead : List Char → List Char → Bool
  | [], _ => true
  | _ :: _, [] => false
  | p :: ps, c :: cs => (p = c) && matchHead ps cs

/-- Python substring containment `pat in s` on char lists: `pat` occurs
contiguously somewhere in `s`. -/
def containsSub (pat : List Char) : List Char → Bool
  | [] => pat.isEmpty
  | c :: rest => matchHead pat (c :: rest) || containsSub pat rest

/-- The fixed naming convention mapping an attribute id to its column
name fragment: Python f-string `attr_{kw.attr}`. -/
def attrName (a : Nat) : String := "attr_" ++ toString a

/-- Python dict read `d[k]` on an association list (raises `KeyError`,
i.e. yields `none`, when the key is absent). -/
def alookup {α : Type} (k : Nat) : List (Nat × α) → Option α
  | [] => none
  | (k2, v) :: rest => if k2 = k then some v else alookup k rest

/-- Python dict write `d[k] = v` on an association list: replaces the
entry in place when the key exists, appends otherwise. -/
def dictInsert {α : Type} (k : Nat) (v : α) : List (Nat × α) → List (Nat × α)
  | [] => [(k, v)]
  | (k2, v2) :: rest => if k2 = k then (k, v) :: rest else (k2, v2) :: dictInsert k v rest

/-- A column of a Naru `CsvTable`; only its name matters for query
translation. -/
structure Column where
  name : String
deriving DecidableEq

/-- A Naru `CsvTable` built from a dataframe: its ordered columns
(`table.Columns()`) and its row count (`.cardinality`). -/
structure Table where
  columns : List Column
  cardinality : Nat
deriving DecidableEq

/-- A `RelationalKeyword`: an equality predicate `(table, attr, value)`. -/
structure RelationalKeyword where
  table : Nat
  attr : Nat
  value : Int
deriving DecidableEq

/-- The parameters of the `ProgressiveSampling` engine stored per table by
`train`: the sample table's row-id count and the full table's cardinality
(the model itself is the external naru collaborator). -/
structure CardEst where
  sampleRows : Nat
  fullCard : Nat
deriving DecidableEq

/-- The `RelationalDatabase` collaborator as used by the estimator:
`tables()`, `table_id`, the pandas-extension dataframe turned into a
`CsvTable`, `row_ids`, and the `is_open()` session flag. -/
structure RelDB where
  tables : List String
  tableId : String → Nat
  csvTable : Nat → Table
  rowIds : Nat → List Nat
  isOpen : Bool

/-- Mutable state of a `NaruRelationalEstimator`: `_table_dict` mapping a
table id to its `(sample, full)` `CsvTable` pair, and `_estimator`, the
registry mapping a table id to its trained query engine (`None` before
training). -/
structure EstimatorState where
  table_dict : List (Nat × (Table × Table))
  registry : Option (List (Nat × CardEst))
deriving DecidableEq

/-- Observable events of the estimator lifecycle: session open/close of
the sample database, one full training pass (`self.train()` body), and an
invocation of the progressive-sampling `Query` engine with its exact
arguments. -/
inductive Event where
  | sessionOpen
  | sessionClose
  | trainPass
  | engineQuery (tableId : Nat) (cols : List Column) (ops : List String) (vals : List Int)
deriving DecidableEq

/-- The result of `ProgressiveSampling.Query`, abstracted as a function of
the queried table and the `(columns, operators, values)` arguments. -/
def EngineFun : Type := Nat → List Column → List String → List Int → ℚ

/-- The equality operator string passed to the query engine. -/
def eqStr : String := "="

/-- Number of `trainPass` events in a trace. -/
def countTrain : List Event → Nat
  | [] => 0
  | Event.trainPass :: rest => countTrain rest + 1
  | _ :: rest => countTrain rest

/-- Whether an event is an invocation of the progressive-sampling query
engine. -/
def isEngineQuery : Event → Bool
  | Event.engineQuery _ _ _ _ => true
  | _ => false

/-- `__init__` loop: `self._table_dict[table_id] = (CsvTable(table, df,
df.columns), CsvTable(table, full_df, full_df.columns))` for every table of
the sample database, in table order. -/
def buildTableDict (sample full : RelDB) :
    List String → List (Nat × (Table × Table)) → List (Nat × (Table × Table))
  | [], acc => acc
  | t :: ts, acc =>
    let tid := sample.tableId t
    buildTableDict sample full ts
      (dictInsert tid (sample.csvTable tid, full.csvTable tid) acc)

/-- The loop of `train`: for every table of the sample database, look up
its `(table, full_table)` pair in `_table_dict` (`KeyError` when absent),
run the per-table model training (MakeMade / InitWeight / Adam / Entropy /
`__epochs` times RunEpoch — the external naru collaborator, summarized by
the resulting engine parameters) and store
`ProgressiveSampling(model, table, len(row_ids(table_id)),
cardinality=full_table.cardinality)` under the table id. -/
def buildRegistry (db : RelDB) (dict : List (Nat × (Table × Table))) :
    List String → List (Nat × CardEst) → Option (List (Nat × CardEst))
  | [], acc => some acc
  | t :: ts, acc =>
    let tid := db.tableId t
    match alookup tid dict with
    | none => none
    | some pair =>
      buildRegistry db dict ts
        (dictInsert tid ⟨(db.rowIds tid).length, pair.2.cardinality⟩ acc)

/-- `NaruRelationalEstimator.train`: starts from a fresh empty dict
(`self._estimator = dict()`) and populates one engine per table. -/
def train (db : RelDB) (st : EstimatorState) : Option EstimatorState :=
  (buildRegistry db st.table_dict db.tables []).map
    (fun reg => { st with registry := some reg })

/-- The column-selection comprehension of `estimate`:
`[c for c in table.Columns() if f"attr_{kw.attr}" in c.name]`
(substring containment, as in Python `in`). -/
def matchCols (table : Table) (attr : Nat) : List Column :=
  table.columns.filter (fun c => containsSub (attrName attr).data c.name.data)

/-- Body of `estimate` once the estimator registry is known to be a dict
(`reg`): looks up `_table_dict[kw.table]` and `_estimator[kw.table]`
(`KeyError` -> `none`), handles the cross-table conjunction case, and
otherwise invokes the engine; returns the estimate together with the
engine-invocation events. -/
def estimateBody (engine : EngineFun) (dict : List (Nat × (Table × Table)))
    (reg : List (Nat × CardEst)) (kw : RelationalKeyword) :
    Option RelationalKeyword → Option (ℚ × List Event)
  | none =>
    match alookup kw.table dict with
    | none => none
    | some pair =>
      match alookup kw.table reg with
      | none => none
      | some _ =>
        let cols := matchCols pair.1 kw.attr
        some (engine kw.table cols [eqStr] [kw.value],
              [Event.engineQuery kw.table cols [eqStr] [kw.value]])
  | some kw2 =>
    match alookup kw.table dict with
    | none => none
    | some pair =>
      if kw2.table ≠ kw.table then
        some (0, [])
      else
        match alookup kw.table reg with
        | none => none
        | some _ =>
          let cols := matchCols pair.1 kw.attr ++ matchCols pair.1 kw2.attr
          some (engine kw.table cols [eqStr, eqStr] [kw.value, kw2.value],
                [Event.engineQuery kw.table cols [eqStr, eqStr] [kw.value, kw2.value]])

/-- `NaruRelationalEstimator.estimate`: when `self._estimator is None` it
first runs `self.train()` (inlined here as `buildRegistry`, exactly the
body of `train`), then translates the predicate(s) and invokes the query
engine.  Returns the estimate, the post-call state and the event trace;
`none` models an uncaught Python exception. -/
def estimate (db : RelDB) (engine : EngineFun) (st : EstimatorState)
    (kw : RelationalKeyword) (kw2 : Option RelationalKeyword) :
    Option (ℚ × EstimatorState × List Event) :=
  match st.registry with
  | some reg =>
    (estimateBody engine st.table_dict reg kw kw2).map (fun p => (p.1, st, p.2))
  | none =>
    match buildRegistry db st.table_dict db.tables [] with
    | none => none
    | some reg =>
      (estimateBody engine st.table_dict reg kw kw2).map
        (fun p => (p.1, { st with registry := some reg }, Event.trainPass :: p.2))

/-- `NaruRelationalEstimator.__init__`: builds `_table_dict` for every
table of the sample database and calls `self.train()`; when the sample
database is not in an open session the work happens inside a
`with self._dataset_sample` block (session opened and closed around it),
otherwise it happens directly — in both branches `self.train()` is
called. -/
def initEstimator (sample full : RelDB) : Option (EstimatorState × List Event) :=
  let dict := buildTableDict sample full sample.tables []
  let st0 : EstimatorState := { table_dict := dict, registry := none }
  if sample.isOpen = false then
    (train sample st0).map
      (fun st1 => (st1, [Event.sessionOpen, Event.trainPass, Event.sessionClose]))
  else
    (train sample st0).map (fun st1 => (st1, [Event.trainPass]))

/-- `ErrorMetric(est_card, card)` from `eval.py`, verbatim branch order. -/
def ErrorMetric (est_card card : ℚ) : ℚ :=
  if card = 0 ∧ est_card ≠ 0 then est_card
  else if card ≠ 0 ∧ est_card = 0 then card
  else if card = 0 ∧ est_card = 0 then 1
  else max (est_card / card) (card / est_card)

/-! ### Evaluation harness: `evaluate_estimator` (eval.py) -/

/-- Loop of the non-co-occurrence branch of `evaluate_estimator`: for each
query compute the estimate and the ground truth `len(doc_ids(q))`, and
append `ErrorMetric(est, actual)` to `error_value_list` unless
`ignore_zero_one and est == 0 and actual == 1`. -/
def errorList1 (est : RelationalKeyword → ℚ) (docIds : RelationalKeyword → Nat)
    (ignore_zero_one : Bool) : List RelationalKeyword → List ℚ
  | [] => []
  | q :: qs =>
    let ev := est q
    let av : ℚ := (docIds q : ℚ)
    if ignore_zero_one && decide (ev = 0) && decide (av = 1) then
      errorList1 est docIds ignore_zero_one qs
    else ErrorMetric ev av :: errorList1 est docIds ignore_zero_one qs

/-- Loop of the co-occurrence branch of `evaluate_estimator`: as
`errorList1` but over query pairs, with `co_occurrence(q1, q2)` as ground
truth. -/
def errorList2 (est2 : RelationalKeyword → RelationalKeyword → ℚ)
    (coOcc : RelationalKeyword → RelationalKeyword → Nat)
    (ignore_zero_one : Bool) :
    List (RelationalKeyword × RelationalKeyword) → List ℚ
  | [] => []
  | p :: ps =>
    let ev := est2 p.1 p.2
    let av : ℚ := (coOcc p.1 p.2 : ℚ)
    if ignore_zero_one && decide (ev = 0) && decide (av = 1) then
      errorList2 est2 coOcc ignore_zero_one ps
    else ErrorMetric ev av :: errorList2 est2 coOcc ignore_zero_one ps

/-- `np.median`: mean of the middle element(s) of the sorted data. -/
def npMedian (l : List ℚ) : ℚ :=
  let s := List.insertionSort (· ≤ ·) l
  let n := s.length
  if n % 2 = 1 then s.getD (n / 2) 0
  else (s.getD (n / 2 - 1) 0 + s.getD (n / 2) 0) / 2

/-- `np.quantile` with the default linear interpolation. -/
def npQuantile (l : List ℚ) (q : ℚ) : ℚ :=
  let s := List.insertionSort (· ≤ ·) l
  let n := s.length
  let h : ℚ := ((n : ℚ) - 1) * q
  let lo := (⌊h⌋).toNat
  let hi := (⌈h⌉).toNat
  s.getD lo 0 + (h - (lo : ℚ)) * (s.getD hi 0 - s.getD lo 0)

/-- `np.max`: raises `ValueError` on an empty list (modelled as `none`). -/
def npMax : List ℚ → Option ℚ
  | [] => none
  | x :: xs => some (xs.foldl max x)

/-- `evaluate_estimator` from `eval.py`.  The estimator is abstracted by
its single- and two-predicate `estimate` functions, the ground-truth
extensions by `docIds` and `coOcc`; the `use_cooc` flag of the source is
reflected in the type of the workload (`Sum.inl`: list of queries,
`Sum.inr`: list of query pairs).  Returns
`(median, .95 quantile, .99 quantile, max)` of the per-query error list,
or `none` when the reduction of the empty list fails (`np.max([])` raises
`ValueError`). -/
def evaluate_estimator (est : RelationalKeyword → ℚ)
    (est2 : RelationalKeyword → RelationalKeyword → ℚ)
    (docIds : RelationalKeyword → Nat)
    (coOcc : RelationalKeyword → RelationalKeyword → Nat)
    (keywords : List RelationalKeyword ⊕ List (RelationalKeyword × RelationalKeyword))
    (ignore_zero_one : Bool) : Option (ℚ × ℚ × ℚ × ℚ) :=
  let errs := match keywords with
    | Sum.inl qs => errorList1 est docIds ignore_zero_one qs
    | Sum.inr qps => errorList2 est2 coOcc ignore_zero_one qps
  match npMax errs with
  | none => none
  | some mx =>
    some (npMedian errs, npQuantile errs (95 / 100), npQuantile errs (99 / 100), mx)

/-! ### Evaluation harness: `run_rlen_eval` sweep (eval.py)

The random draws `mimic_db.sample(rate)` and `mimic_db.queries(...)` are
modelled by a deterministic draw counter: each draw consumes one counter
value, which identifies the drawn object.  Each appended result row keeps
the estimator label, the rate, and which sample and workload the
estimator was evaluated against. -/

/-- One row of `results_list` as far as the sweep protocol is concerned:
the estimator label, the known-data rate, and the identities of the sample
database and of the query workload handed to `evaluate_estimator`
(a workload is the list of `queries(...)` draws it was built from —
two zipped draws in co-occurrence mode). -/
structure EvalRecord where
  method : String
  rate : ℚ
  sampleId : Nat
  workload : List Nat
deriving DecidableEq

/-- `[i / 10 for i in range(2, 10, 2)]`. -/
def rates : List ℚ := [2, 4, 6, 8].map (fun i => (i : ℚ) / 10)

/-- Random draws consumed by one `(trial, rate)` iteration: one
`sample(rate)` draw plus one `queries(...)` draw (two in co-occurrence
mode). -/
def drawsPerIter (use_cooc : Bool) : Nat := if use_cooc then 3 else 2

/-- Body of the inner rate loop of `run_rlen_eval`: draw
`sampled_db = mimic_db.sample(known_data_rate)`, draw the query workload
(`kw_sample`, zipped from two draws in co-occurrence mode), then evaluate
the SAMPLING, KDE and NARU estimators, each constructed from `sampled_db`
and evaluated on `kw_sample`.  Returns the three result rows and the
advanced draw counter. -/
def iterAtRate (use_cooc : Bool) (rng : Nat) (rate : ℚ) : List EvalRecord × Nat :=
  let sampleId := rng
  let rng1 := rng + 1
  let wl : List Nat × Nat :=
    if use_cooc then ([rng1, rng1 + 1], rng1 + 2) else ([rng1], rng1 + 1)
  ([⟨"SAMPLING", rate, sampleId, wl.1⟩,
    ⟨"KDE", rate, sampleId, wl.1⟩,
    ⟨"NARU", rate, sampleId, wl.1⟩], wl.2)

/-- The rate loop `for known_data_rate in [i / 10 for i in range(2, 10, 2)]`. -/
def sweepRates (use_cooc : Bool) : List ℚ → Nat → List EvalRecord × Nat
  | [], rng => ([], rng)
  | r :: rs, rng =>
    let step := iterAtRate use_cooc rng r
    let rest := sweepRates use_cooc rs step.2
    (step.1 ++ rest.1, rest.2)

/-- The trial loop `for i in range(0, nr_of_evals)`. -/
def runTrials (use_cooc : Bool) : Nat → Nat → List EvalRecord
  | 0, _ => []
  | Nat.succ n, rng =>
    let step := sweepRates use_cooc rates rng
    step.1 ++ runTrials use_cooc n step.2

/-- `run_rlen_eval(nr_of_evals, ..., use_cooc, ...)`: the full sweep,
starting from a fresh draw counter. -/
def run_rlen_eval (nr_of_evals : Nat) (use_cooc : Bool) : List EvalRecord :=
  runTrials use_cooc nr_of_evals 0

/-- The three result rows that global iteration `i` (trial index times
four, plus rate index) is expected to produce: one sample draw shared by
all three estimators, then the workload draws, also shared. -/
def expectedBlock (use_cooc : Bool) (i : Nat) (r : ℚ) : List EvalRecord :=
  let s := i * drawsPerIter use_cooc
  let w : List Nat := if use_cooc then [s + 1, s + 2] else [s + 1]
  [⟨"SAMPLING", r, s, w⟩, ⟨"KDE", r, s, w⟩, ⟨"NARU", r, s, w⟩]

/-- The twelve result rows expected of trial `t`: one block per rate, in
rate order. -/
def trialBlocks (use_cooc : Bool) (t : Nat) : List EvalRecord :=
  expectedBlock use_cooc (4 * t) (rates.getD 0 0) ++
  expectedBlock use_cooc (4 * t + 1) (rates.getD 1 0) ++
  expectedBlock use_cooc (4 * t + 2) (rates.getD 2 0) ++
  expectedBlock use_cooc (4 * t + 3) (rates.getD 3 0)

/-! ### SQL connection layer (sql.py) -/

/-- `SQLConnection` state: `__connection` is `None` until a successful
`open()`; an abstract handle identifies the live MySQL connection. -/
structure SQLConnection where
  connection : Option Nat
  host_name : String
deriving DecidableEq

/-- Log records emitted by the connection layer. -/
inductive LogMsg where
  | info
  | warning
deriving DecidableEq

/-- `SQLConnection.is_open`. -/
def is_open (c : SQLConnection) : Bool := c.connection.isSome

/-- Outcome of the backend work done by `cursor.execute(query)` /
`commit()`: success, or a raised `mysql.connector.Error`. -/
inductive ExecOutcome where
  | success
  | backendError
deriving DecidableEq

/-- `SQLConnection.execute_query`: raises `ConnectionError` when the
connection is not open; otherwise runs the query, catching a backend
`Error` and logging it as a warning. -/
def execute_query (c : SQLConnection) (_query : String) (outcome : ExecOutcome) :
    Except String (SQLConnection × List LogMsg) :=
  if is_open c = false then
    Except.error "ConnectionError"
  else
    match outcome with
    | ExecOutcome.success => Except.ok (c, [])
    | ExecOutcome.backendError => Except.ok (c, [LogMsg.warning])

/-- `SQLConnection.open`: `mysql.connector.connect` either returns a
connection handle (`some h`) which is stored, or raises `Error` (`none`),
which is caught and logged as a warning, leaving `__connection` as it
was. -/
def openConn (c : SQLConnection) (outcome : Option Nat) : SQLConnection × List LogMsg :=
  match outcome with
  | some h => ({ c with connection := some h }, [LogMsg.info])
  | none => (c, [LogMsg.warning])

/-! ### Concrete instances used to evaluate the definitions -/

/-- A one-column sample/full table. -/
def wTable : Table := ⟨[⟨"attr_1"⟩], 4⟩

/-- A one-table sample database, not in an open session. -/
def wDb : RelDB := ⟨["t"], fun _ => 0, fun _ => wTable, fun _ => [0, 1], false⟩

/-- A query engine returning a fixed estimate. -/
def wEngine : EngineFun := fun _ _ _ _ => 3

/-- Estimator state before any training (`_estimator is None`). -/
def wStNone : EstimatorState := ⟨[(0, (wTable, wTable))], none⟩

/-- Estimator state after training on `wDb`. -/
def wStTrained : EstimatorState := ⟨[(0, (wTable, wTable))], some [(0, ⟨2, 4⟩)]⟩

/-- Estimator state holding a stale registry from an earlier training. -/
def wStJunk : EstimatorState := ⟨[(0, (wTable, wTable))], some [(7, ⟨9, 9⟩)]⟩

/-- A table whose column names overlap on the `attr_` naming convention:
`attr_1` is a substring of `attr_12`. -/
def cxTable : Table := ⟨[⟨"attr_1"⟩, ⟨"attr_12"⟩], 10⟩

/-- A database over `cxTable`. -/
def cxDb : RelDB := ⟨["t"], fun _ => 0, fun _ => cxTable, fun _ => [0], true⟩

/-- A query engine returning zero. -/
def cxEngine : EngineFun := fun _ _ _ _ => 0

/-- A trained estimator state over `cxTable`. -/
def cxSt : EstimatorState := ⟨[(0, (cxTable, cxTable))], some [(0, ⟨1, 10⟩)]⟩

/-- A one-table sample database that is already in an open session. -/
def opDb : RelDB := ⟨["t"], fun _ => 0, fun _ => wTable, fun _ => [0, 1], true⟩

/-! ## Theorems -/

/-- C2: `ErrorMetric(estimated, actual)` returns `1.0` when both
arguments are zero, the non-zero argument when exactly one argument is
zero, and `max(estimated/actual, actual/estimated)` otherwise; in
particular `ErrorMetric(0,0) = 1`, `ErrorMetric(5,0) = 5`,
`ErrorMetric(0,3) = 3`, `ErrorMetric(10,5) = 2` and
`ErrorMetric(5,10) = 2`. -/
theorem errorMetric_cases :
    ErrorMetric 0 0 = 1 ∧ ErrorMetric 5 0 = 5 ∧ ErrorMetric 0 3 = 3 ∧
    ErrorMetric 10 5 = 2 ∧ ErrorMetric 5 10 = 2 ∧
    (∀ e c : ℚ, c = 0 → e ≠ 0 → ErrorMetric e c = e) ∧
    (∀ e c : ℚ, c ≠ 0 → e = 0 → ErrorMetric e c = c) ∧
    (∀ e c : ℚ, c ≠ 0 → e ≠ 0 → ErrorMetric e c = max (e / c) (c / e)) := by
  refine ⟨by norm_num [ErrorMetric], by norm_num [ErrorMetric], by norm_num [ErrorMetric],
    ?_, ?_, ?_, ?_, ?_⟩
  · have : max ((10 : ℚ) / 5) (5 / 10) = 2 := by
      rw [max_eq_left (by norm_num)]; norm_num
    simpa [ErrorMetric] using this
  · have : max ((5 : ℚ) / 10) (10 / 5) = 2 := by
      rw [max_eq_right (by norm_num)]; norm_num
    simpa [ErrorMetric] using this
  · intro e c hc he; simp [ErrorMetric, hc, he]
  · intro e c hc he; simp [ErrorMetric, hc, he]
  · intro e c hc he; simp [ErrorMetric, hc, he]

/-- Witness for C2: the general zero-cases and ratio case evaluated at
concrete inputs. -/
theorem errorMetric_cases_witness :
    ErrorMetric 7 0 = 7 ∧ ErrorMetric 0 7 = 7 ∧
    ErrorMetric 6 2 = max ((6 : ℚ) / 2) (2 / 6) :=
  ⟨errorMetric_cases.2.2.2.2.2.1 7 0 rfl (by norm_num),
   errorMetric_cases.2.2.2.2.2.2.1 0 7 (by norm_num) rfl,
   errorMetric_cases.2.2.2.2.2.2.2 6 2 (by norm_num) (by norm_num)⟩

/-- C8: on strictly positive arguments `ErrorMetric` is symmetric, at
least `1`, and equals `1` exactly when the two arguments are equal. -/
theorem errorMetric_pos_props (e c : ℚ) (he : 0 < e) (hc : 0 < c) :
    ErrorMetric e c = ErrorMetric c e ∧ 1 ≤ ErrorMetric e c ∧
    (ErrorMetric e c = 1 ↔ e = c) := by
  have he' : e ≠ 0 := he.ne'
  have hc' : c ≠ 0 := hc.ne'
  have hmc : ErrorMetric e c = max (e / c) (c / e) := by simp [ErrorMetric, he', hc']
  have hme : ErrorMetric c e = max (c / e) (e / c) := by simp [ErrorMetric, he', hc']
  refine ⟨by rw [hmc, hme, max_comm], ?_, ?_⟩
  · rw [hmc]
    rcases le_total e c with h | h
    · exact le_trans ((one_le_div he).mpr h) (le_max_right _ _)
    · exact le_trans ((one_le_div hc).mpr h) (le_max_left _ _)
  · rw [hmc]
    constructor
    · intro h1
      have h2 : e / c ≤ 1 := le_of_le_of_eq (le_max_left _ _) h1
      have h3 : c / e ≤ 1 := le_of_le_of_eq (le_max_right _ _) h1
      exact le_antisymm ((div_le_one hc).mp h2) ((div_le_one he).mp h3)
    · intro h1
      rw [h1, div_self hc', max_self]

/-- Witness for C8 at `estimated = 2`, `actual = 3`. -/
theorem errorMetric_pos_props_witness :
    ErrorMetric 2 3 = ErrorMetric 3 2 ∧ 1 ≤ ErrorMetric 2 3 ∧
    (ErrorMetric 2 3 = 1 ↔ (2 : ℚ) = 3) :=
  errorMetric_pos_props 2 3 (by norm_num) (by norm_num)

/-- Counterexample to C9 as stated: a failed `open()` on a connection
that is already open leaves `is_open()` returning `true`, not `false` —
the caught `connect` error leaves `__connection` untouched. -/
theorem sql_failed_open_cex :
    is_open (openConn ⟨some 0, "localhost"⟩ none).1 ≠ false := by decide

/-- C9 (amended): `execute_query` raises a `ConnectionError` exactly when
the connection is not open; with an open connection it never raises
(backend errors are caught and logged as warnings).  A failed `open()`
does not raise; it logs a warning and leaves the connection state
unchanged — in particular `is_open()` returns `false` whenever the
connection was not already open. -/
theorem sql_connection_errors (c : SQLConnection) (q : String) (eo : ExecOutcome) :
    ((∃ msg, execute_query c q eo = Except.error msg) ↔ is_open c = false) ∧
    (is_open c = true → ∃ logs, execute_query c q eo = Except.ok (c, logs)) ∧
    (openConn c none).1 = c ∧ (openConn c none).2 = [LogMsg.warning] ∧
    (is_open c = false → is_open (openConn c none).1 = false) := by
  refine ⟨?_, ?_, rfl, rfl, ?_⟩
  · cases h : is_open c
    · simp [execute_query, h]
    · cases eo <;> simp [execute_query, h]
  · intro h
    cases eo <;> simp [execute_query, h]
  · intro h
    simpa [openConn] using h

/-- Witness for C9: an open connection executes a failing backend query
without raising. -/
theorem sql_connection_errors_witness :
    ∃ logs, execute_query ⟨some 0, "localhost"⟩ "q" ExecOutcome.backendError =
      Except.ok (⟨some 0, "localhost"⟩, logs) :=
  (sql_connection_errors ⟨some 0, "localhost"⟩ "q" ExecOutcome.backendError).2.1 rfl

/-- `np.max` fails exactly on the empty list. -/
theorem npMax_eq_none_iff (l : List ℚ) : npMax l = none ↔ l = [] := by
  cases l <;> simp [npMax]

/-- When the zero/one filter discards every query, the error list of the
single-predicate branch is empty. -/
theorem errorList1_all_discarded (est : RelationalKeyword → ℚ)
    (docIds : RelationalKeyword → Nat) (qs : List RelationalKeyword)
    (h : ∀ q ∈ qs, est q = 0 ∧ docIds q = 1) :
    errorList1 est docIds true qs = [] := by
  induction qs with
  | nil => rfl
  | cons q qs ih =>
    obtain ⟨h1, h2⟩ := h q (by simp)
    have hav : ((docIds q : ℚ)) = 1 := by rw [h2]; norm_num
    simp only [errorList1, h1, hav]
    simpa using ih (fun q2 hq2 => h q2 (by simp [hq2]))

/-- C10: `evaluate_estimator` yields the four statistics exactly when at
least one query result is retained; an empty workload, or a workload
where the zero/one filter discards every result, makes the reduction fail
(`np.max` of an empty list raises) instead of returning a value. -/
theorem evaluate_estimator_nonempty (est : RelationalKeyword → ℚ)
    (est2 : RelationalKeyword → RelationalKeyword → ℚ)
    (docIds : RelationalKeyword → Nat)
    (coOcc : RelationalKeyword → RelationalKeyword → Nat)
    (keywords : List RelationalKeyword ⊕ List (RelationalKeyword × RelationalKeyword))
    (izo : Bool) :
    ((evaluate_estimator est est2 docIds coOcc keywords izo).isSome = true ↔
      (match keywords with
       | Sum.inl qs => errorList1 est docIds izo qs
       | Sum.inr qps => errorList2 est2 coOcc izo qps) ≠ []) ∧
    evaluate_estimator est est2 docIds coOcc (Sum.inl []) izo = none ∧
    evaluate_estimator est est2 docIds coOcc (Sum.inr []) izo = none ∧
    (∀ qs : List RelationalKeyword, (∀ q ∈ qs, est q = 0 ∧ docIds q = 1) →
      evaluate_estimator est est2 docIds coOcc (Sum.inl qs) true = none) := by
  refine ⟨?_, ?_, ?_, ?_⟩
  · cases keywords with
    | inl qs =>
      simp only [evaluate_estimator]
      cases h : npMax (errorList1 est docIds izo qs) with
      | none => simp [(npMax_eq_none_iff _).mp h]
      | some mx =>
        have : errorList1 est docIds izo qs ≠ [] := by
          intro hnil; rw [hnil] at h; simp [npMax] at h
        simp [this]
    | inr qps =>
      simp only [evaluate_estimator]
      cases h : npMax (errorList2 est2 coOcc izo qps) with
      | none => simp [(npMax_eq_none_iff _).mp h]
      | some mx =>
        have : errorList2 est2 coOcc izo qps ≠ [] := by
          intro hnil; rw [hnil] at h; simp [npMax] at h
        simp [this]
  · simp [evaluate_estimator, errorList1, npMax]
  · simp [evaluate_estimator, errorList2, npMax]
  · intro qs h
    simp [evaluate_estimator, errorList1_all_discarded est docIds qs h, npMax]

/-- Witness for C10: a workload whose every entry is discarded by the
zero/one filter makes the call fail. -/
theorem evaluate_estimator_nonempty_witness :
    evaluate_estimator (fun _ => 0) (fun _ _ => 0) (fun _ => 1) (fun _ _ => 1)
      (Sum.inl [⟨0, 0, 0⟩]) true = none :=
  (evaluate_estimator_nonempty (fun _ => 0) (fun _ _ => 0) (fun _ => 1) (fun _ _ => 1)
      (Sum.inl []) true).2.2.2 [⟨0, 0, 0⟩] (fun _ _ => ⟨rfl, rfl⟩)

/-- `alookup` finds a key exactly when it is among the stored keys. -/
theorem alookup_isSome {α : Type} (a : Nat) (l : List (Nat × α)) :
    (alookup a l).isSome = true ↔ a ∈ l.map Prod.fst := by
  induction l with
  | nil => simp [alookup]
  | cons p rest ih =>
    obtain ⟨k2, v⟩ := p
    by_cases h : k2 = a
    · subst h; simp [alookup]
    · simp [alookup, h, ih, Ne.symm h]

/-- Keys present after a Python-style dict write. -/
theorem mem_keys_dictInsert {α : Type} (a k : Nat) (v : α) (l : List (Nat × α)) :
    a ∈ (dictInsert k v l).map Prod.fst ↔ a = k ∨ a ∈ l.map Prod.fst := by
  induction l with
  | nil => simp [dictInsert]
  | cons p rest ih =>
    obtain ⟨k2, v2⟩ := p
    by_cases h : k2 = k
    · subst h
      simp [dictInsert]
    · simp [dictInsert, h, ih]
      tauto

/-- A Python-style dict write preserves key uniqueness. -/
theorem nodup_keys_dictInsert {α : Type} (k : Nat) (v : α) (l : List (Nat × α))
    (h : (l.map Prod.fst).Nodup) : ((dictInsert k v l).map Prod.fst).Nodup := by
  induction l with
  | nil => simp [dictInsert]
  | cons p rest ih =>
    obtain ⟨k2, v2⟩ := p
    rw [List.map_cons, List.nodup_cons] at h
    by_cases hk : k2 = k
    · subst hk
      simpa [dictInsert] using h
    · rw [show dictInsert k v ((k2, v2) :: rest) = (k2, v2) :: dictInsert k v rest from by
        simp [dictInsert, hk]]
      rw [List.map_cons, List.nodup_cons]
      refine ⟨?_, ih h.2⟩
      intro hmem
      rcases (mem_keys_dictInsert k2 k v rest).mp hmem with h1 | h1
      · exact hk h1
      · exact h.1 h1

/-- The training loop succeeds when `_table_dict` covers every table of
the sample database, and then its resulting registry has pairwise
distinct keys, which are exactly the accumulated keys plus the ids of the
remaining tables. -/
theorem buildRegistry_spec (db : RelDB) (dict : List (Nat × (Table × Table))) :
    ∀ (ts : List String) (acc : List (Nat × CardEst)),
      (∀ t ∈ ts, (alookup (db.tableId t) dict).isSome = true) →
      ∃ reg, buildRegistry db dict ts acc = some reg ∧
        ((acc.map Prod.fst).Nodup → (reg.map Prod.fst).Nodup) ∧
        (∀ a, a ∈ reg.map Prod.fst ↔
          a ∈ acc.map Prod.fst ∨ ∃ t ∈ ts, db.tableId t = a) := by
  intro ts
  induction ts with
  | nil =>
    intro acc _
    exact ⟨acc, rfl, fun h => h, by simp⟩
  | cons t ts ih =>
    intro acc h
    have hcov : (alookup (db.tableId t) dict).isSome = true := h t (by simp)
    obtain ⟨pair, hp⟩ := Option.isSome_iff_exists.mp hcov
    obtain ⟨reg, hr, hnd, hmem⟩ :=
      ih (dictInsert (db.tableId t)
            ⟨(db.rowIds (db.tableId t)).length, pair.2.cardinality⟩ acc)
        (fun t2 ht2 => h t2 (by simp [ht2]))
    refine ⟨reg, ?_, ?_, ?_⟩
    · rw [show buildRegistry db dict (t :: ts) acc =
          (match alookup (db.tableId t) dict with
           | none => none
           | some pair =>
             buildRegistry db dict ts
               (dictInsert (db.tableId t)
                 ⟨(db.rowIds (db.tableId t)).length, pair.2.cardinality⟩ acc)) from rfl]
      rw [hp]
      exact hr
    · intro hacc
      exact hnd (nodup_keys_dictInsert _ _ _ hacc)
    · intro a
      rw [hmem a, mem_keys_dictInsert]
      constructor
      · rintro ((h1 | h1) | ⟨t2, ht2, hid⟩)
        · exact Or.inr ⟨t, by simp, h1.symm⟩
        · exact Or.inl h1
        · exact Or.inr ⟨t2, by simp [ht2], hid⟩
      · rintro (h1 | ⟨t2, ht2, hid⟩)
        · exact Or.inl (Or.inr h1)
        · rcases List.mem_cons.mp ht2 with h2 | h2
          · subst h2; exact Or.inl (Or.inl hid.symm)
          · exact Or.inr ⟨t2, h2, hid⟩

/-- C4: under the constructor's guarantee that `_table_dict` covers every
table of the sample database, `train()` succeeds and the resulting
registry has exactly one entry per table id known to the sample database;
the result registry is a function of `_table_dict` alone, so a repeated
`train()` call fully replaces any prior registry state. -/
theorem train_registry_complete (db : RelDB) (st : EstimatorState)
    (hcov : ∀ t ∈ db.tables, (alookup (db.tableId t) st.table_dict).isSome = true) :
    ∃ reg, train db st = some { st with registry := some reg } ∧
      (reg.map Prod.fst).Nodup ∧
      (∀ a, a ∈ reg.map Prod.fst ↔ ∃ t ∈ db.tables, db.tableId t = a) ∧
      (∀ st2 : EstimatorState, st2.table_dict = st.table_dict →
        train db st2 = some { st2 with registry := some reg }) := by
  obtain ⟨reg, hr, hnd, hmem⟩ := buildRegistry_spec db st.table_dict db.tables [] hcov
  refine ⟨reg, ?_, hnd (by simp), ?_, ?_⟩
  · simp [train, hr]
  · intro a
    simpa using hmem a
  · intro st2 h2
    simp [train, h2, hr]

/-- Witness for C4: a concrete one-table database, starting from a stale
registry that the new training pass fully replaces. -/
theorem train_registry_complete_witness :
    ∃ reg, train wDb wStJunk = some { wStJunk with registry := some reg } ∧
      (reg.map Prod.fst).Nodup ∧
      (∀ a, a ∈ reg.map Prod.fst ↔ ∃ t ∈ wDb.tables, wDb.tableId t = a) ∧
      (∀ st2 : EstimatorState, st2.table_dict = wStJunk.table_dict →
        train wDb st2 = some { st2 with registry := some reg }) :=
  train_registry_complete wDb wStJunk (by decide)

/-- A successful `estimate` decomposes into a successful `estimateBody`,
either directly on the present registry, or after one lazy training pass
whose result becomes the new registry. -/
theorem estimate_eq_some (db : RelDB) (engine : EngineFun) (st : EstimatorState)
    (kw : RelationalKeyword) (kw2 : Option RelationalKeyword)
    (q : ℚ) (st1 : EstimatorState) (evs : List Event)
    (h : estimate db engine st kw kw2 = some (q, st1, evs)) :
    ∃ reg p, estimateBody engine st.table_dict reg kw kw2 = some p ∧ q = p.1 ∧
      ((st.registry = some reg ∧ st1 = st ∧ evs = p.2) ∨
       (st.registry = none ∧ buildRegistry db st.table_dict db.tables [] = some reg ∧
        st1 = { st with registry := some reg } ∧ evs = Event.trainPass :: p.2)) := by
  cases hreg : st.registry with
  | some reg =>
    simp only [estimate, hreg] at h
    cases hb : estimateBody engine st.table_dict reg kw kw2 with
    | none => rw [hb] at h; simp at h
    | some p =>
      rw [hb] at h
      simp only [Option.map_some', Option.some.injEq, Prod.mk.injEq] at h
      exact ⟨reg, p, hb, h.1.symm, Or.inl ⟨rfl, h.2.1.symm, h.2.2.symm⟩⟩
  | none =>
    simp only [estimate, hreg] at h
    cases hbr : buildRegistry db st.table_dict db.tables [] with
    | none => rw [hbr] at h; simp at h
    | some reg =>
      rw [hbr] at h
      simp only [] at h
      cases hb : estimateBody engine st.table_dict reg kw kw2 with
      | none => rw [hb] at h; simp at h
      | some p =>
        rw [hb] at h
        simp only [Option.map_some', Option.some.injEq, Prod.mk.injEq] at h
        exact ⟨reg, p, hb, h.1.symm, Or.inr ⟨rfl, rfl, h.2.1.symm, h.2.2.symm⟩⟩

/-- The body of `estimate` never performs a training pass: its events are
engine invocations only. -/
theorem estimateBody_no_trainPass (engine : EngineFun)
    (dict : List (Nat × (Table × Table))) (reg : List (Nat × CardEst))
    (kw : RelationalKeyword) (kw2 : Option RelationalKeyword) (p : ℚ × List Event)
    (h : estimateBody engine dict reg kw kw2 = some p) :
    countTrain p.2 = 0 ∧ ∀ e ∈ p.2, isEngineQuery e = true ∨ p.2 = [] := by
  cases kw2 with
  | none =>
    simp only [estimateBody] at h
    split at h
    · simp at h
    · split at h
      · simp at h
      · injection h with h2
        subst h2
        exact ⟨rfl, by intro e he; simp at he; subst he; exact Or.inl rfl⟩
  | some kw2 =>
    simp only [estimateBody] at h
    split at h
    · simp at h
    · split at h
      · injection h with h2
        subst h2
        exact ⟨rfl, by simp⟩
      · split at h
        · simp at h
        · injection h with h2
          subst h2
          exact ⟨rfl, by intro e he; simp at he; subst he; exact Or.inl rfl⟩

/-- On a cross-table pair, the body of `estimate` returns `0` with no
engine invocation. -/
theorem estimateBody_cross_table (engine : EngineFun)
    (dict : List (Nat × (Table × Table))) (reg : List (Nat × CardEst))
    (kw kw2 : RelationalKeyword) (p : ℚ × List Event)
    (hne : kw2.table ≠ kw.table)
    (h : estimateBody engine dict reg kw (some kw2) = some p) :
    p = (0, []) := by
  simp only [estimateBody] at h
  split at h
  · simp at h
  · rw [if_pos hne] at h
    injection h with h2
    exact h2.symm

/-- C1: for predicates on different tables, a successful
`estimate(kw, kw2)` returns `0` and never invokes the
progressive-sampling query engine. -/
theorem estimate_cross_table_zero (db : RelDB) (engine : EngineFun)
    (st : EstimatorState) (kw kw2 : RelationalKeyword)
    (q : ℚ) (st1 : EstimatorState) (evs : List Event)
    (hne : kw2.table ≠ kw.table)
    (h : estimate db engine st kw (some kw2) = some (q, st1, evs)) :
    q = 0 ∧ ∀ e ∈ evs, isEngineQuery e = false := by
  obtain ⟨reg, p, hb, hq, hcase⟩ := estimate_eq_some db engine st kw (some kw2) q st1 evs h
  have hp := estimateBody_cross_table engine st.table_dict reg kw kw2 p hne hb
  subst hp
  rcases hcase with ⟨_, _, hevs⟩ | ⟨_, _, _, hevs⟩
  · exact ⟨hq, by simp [hevs]⟩
  · refine ⟨hq, ?_⟩
    rw [hevs]
    intro e he
    simp at he
    subst he
    rfl

/-- Witness for C1: a concrete trained estimator queried with a
cross-table pair. -/
theorem estimate_cross_table_zero_witness :
    (0 : ℚ) = 0 ∧ ∀ e ∈ ([] : List Event), isEngineQuery e = false :=
  estimate_cross_table_zero wDb wEngine wStTrained ⟨0, 1, 5⟩ ⟨1, 2, 7⟩ 0 wStTrained []
    (by decide) (by decide)

/-- C3: a successful `estimate` from an untrained state performs exactly
one training pass and leaves a non-`None` registry; any successful later
`estimate` from the resulting state performs no training pass and leaves
the state unchanged. -/
theorem estimate_lazy_train_once (db : RelDB) (engine : EngineFun)
    (st : EstimatorState) (kw : RelationalKeyword) (kw2 : Option RelationalKeyword)
    (q : ℚ) (st1 : EstimatorState) (evs : List Event)
    (h0 : st.registry = none)
    (h : estimate db engine st kw kw2 = some (q, st1, evs)) :
    countTrain evs = 1 ∧ st1.registry.isSome = true ∧
    (∀ (kwa : RelationalKeyword) (kw2a : Option RelationalKeyword)
       (q2 : ℚ) (st2 : EstimatorState) (evs2 : List Event),
      estimate db engine st1 kwa kw2a = some (q2, st2, evs2) →
      countTrain evs2 = 0 ∧ st2 = st1) := by
  obtain ⟨reg, p, hb, _, hcase⟩ := estimate_eq_some db engine st kw kw2 q st1 evs h
  rcases hcase with ⟨hr, _, _⟩ | ⟨_, _, hst1, hevs⟩
  · rw [h0] at hr; exact absurd hr (by simp)
  · have hcnt : countTrain p.2 = 0 := (estimateBody_no_trainPass engine _ reg kw kw2 p hb).1
    refine ⟨?_, ?_, ?_⟩
    · rw [hevs]
      show countTrain p.2 + 1 = 1
      rw [hcnt]
    · rw [hst1]
      rfl
    · intro kwa kw2a q2 st2 evs2 h2
      obtain ⟨reg2, p2, hb2, _, hcase2⟩ :=
        estimate_eq_some db engine st1 kwa kw2a q2 st2 evs2 h2
      rcases hcase2 with ⟨_, hst2, hevs2⟩ | ⟨hr2, _, _, _⟩
      · refine ⟨?_, hst2⟩
        rw [hevs2]
        exact (estimateBody_no_trainPass engine _ reg2 kwa kw2a p2 hb2).1
      · rw [hst1] at hr2
        exact absurd hr2 (by simp)

/-- Witness for C3: a concrete untrained estimator; its first `estimate`
trains once, and the resulting trained state never retrains. -/
theorem estimate_lazy_train_once_witness :
    countTrain [Event.trainPass,
      Event.engineQuery 0 [⟨"attr_1"⟩] [eqStr] [(5 : Int)]] = 1 ∧
    wStTrained.registry.isSome = true ∧
    (∀ (kwa : RelationalKeyword) (kw2a : Option RelationalKeyword)
       (q2 : ℚ) (st2 : EstimatorState) (evs2 : List Event),
      estimate wDb wEngine wStTrained kwa kw2a = some (q2, st2, evs2) →
      countTrain evs2 = 0 ∧ st2 = wStTrained) :=
  estimate_lazy_train_once wDb wEngine wStNone ⟨0, 1, 5⟩ none 3 wStTrained
    [Event.trainPass, Event.engineQuery 0 [⟨"attr_1"⟩] [eqStr] [(5 : Int)]]
    rfl (by decide)

/-- Counterexample to C6 as stated: column selection uses substring
containment, so with columns named `attr_1` and `attr_12` a predicate on
attribute `1` invokes the engine with both columns, not with exactly the
one column named `attr_1`. -/
theorem estimate_exact_column_cex :
    (estimate cxDb cxEngine cxSt ⟨0, 1, 7⟩ none).map (fun p => p.2.2) =
      some [Event.engineQuery 0 [⟨"attr_1"⟩, ⟨"attr_12"⟩] [eqStr] [(7 : Int)]] ∧
    some [Event.engineQuery 0 [⟨"attr_1"⟩, ⟨"attr_12"⟩] [eqStr] [(7 : Int)]] ≠
      some [Event.engineQuery 0 [⟨"attr_1"⟩] [eqStr] [(7 : Int)]] := by
  constructor
  · decide
  · decide

/-- C6 (amended): on a trained estimator, a single-predicate `estimate`
invokes the engine once with the columns of `kw`'s table whose name
contains `attr_<kw.attr>` as a substring, operators `["="]` and values
`[kw.value]`; a same-table pair invokes it once with the concatenation of
the two predicates' matching column lists, operators `["=", "="]` and
values `[kw.value, kw2.value]`. -/
theorem estimate_engine_invocation (db : RelDB) (engine : EngineFun)
    (st : EstimatorState) (kw kw2 : RelationalKeyword)
    (reg : List (Nat × CardEst)) (pair : Table × Table) (ce : CardEst)
    (hreg : st.registry = some reg)
    (hdict : alookup kw.table st.table_dict = some pair)
    (hce : alookup kw.table reg = some ce)
    (hsame : kw2.table = kw.table) :
    estimate db engine st kw none =
      some (engine kw.table (matchCols pair.1 kw.attr) [eqStr] [kw.value], st,
            [Event.engineQuery kw.table (matchCols pair.1 kw.attr) [eqStr] [kw.value]]) ∧
    estimate db engine st kw (some kw2) =
      some (engine kw.table (matchCols pair.1 kw.attr ++ matchCols pair.1 kw2.attr)
              [eqStr, eqStr] [kw.value, kw2.value], st,
            [Event.engineQuery kw.table
              (matchCols pair.1 kw.attr ++ matchCols pair.1 kw2.attr)
              [eqStr, eqStr] [kw.value, kw2.value]]) := by
  constructor
  · simp [estimate, hreg, estimateBody, hdict, hce]
  · simp [estimate, hreg, estimateBody, hdict, hce, hsame]

/-- Witness for C6 at a concrete trained estimator and same-table pair. -/
theorem estimate_engine_invocation_witness :
    estimate wDb wEngine wStTrained ⟨0, 1, 5⟩ none =
      some (wEngine 0 (matchCols wTable 1) [eqStr] [(5 : Int)], wStTrained,
            [Event.engineQuery 0 (matchCols wTable 1) [eqStr] [(5 : Int)]]) ∧
    estimate wDb wEngine wStTrained ⟨0, 1, 5⟩ (some ⟨0, 1, 6⟩) =
      some (wEngine 0 (matchCols wTable 1 ++ matchCols wTable 1)
              [eqStr, eqStr] [(5 : Int), (6 : Int)], wStTrained,
            [Event.engineQuery 0 (matchCols wTable 1 ++ matchCols wTable 1)
              [eqStr, eqStr] [(5 : Int), (6 : Int)]]) :=
  estimate_engine_invocation wDb wEngine wStTrained ⟨0, 1, 5⟩ ⟨0, 1, 6⟩
    [(0, ⟨2, 4⟩)] (wTable, wTable) ⟨2, 4⟩ rfl rfl rfl rfl

/-- Keys present in `_table_dict` after the constructor loop: exactly the
accumulated keys plus the ids of the processed tables. -/
theorem mem_keys_buildTableDict (sample full : RelDB) :
    ∀ (ts : List String) (acc : List (Nat × (Table × Table))) (a : Nat),
      a ∈ (buildTableDict sample full ts acc).map Prod.fst ↔
        a ∈ acc.map Prod.fst ∨ ∃ t ∈ ts, sample.tableId t = a := by
  intro ts
  induction ts with
  | nil => intro acc a; simp [buildTableDict]
  | cons t ts ih =>
    intro acc a
    rw [show buildTableDict sample full (t :: ts) acc =
          buildTableDict sample full ts
            (dictInsert (sample.tableId t)
              (sample.csvTable (sample.tableId t), full.csvTable (sample.tableId t))
              acc) from rfl,
        ih, mem_keys_dictInsert]
    constructor
    · rintro ((h1 | h1) | ⟨t2, ht2, hid⟩)
      · exact Or.inr ⟨t, by simp, h1.symm⟩
      · exact Or.inl h1
      · exact Or.inr ⟨t2, by simp [ht2], hid⟩
    · rintro (h1 | ⟨t2, ht2, hid⟩)
      · exact Or.inl (Or.inr h1)
      · rcases List.mem_cons.mp ht2 with h2 | h2
        · subst h2; exact Or.inl (Or.inl hid.symm)
        · exact Or.inr ⟨t2, h2, hid⟩

/-- Counterexample to C5 as stated: on a sample database that is already
in an open session, the constructor trace still contains a training pass
— the `else` branch of `__init__` also ends in `self.train()`, so
training is not deferred to a later explicit `train()` call. -/
theorem initEstimator_open_session_cex :
    (initEstimator opDb opDb).map (fun p => countTrain p.2) ≠ some 0 := by decide

/-- C5 (amended): the constructor always runs exactly one training pass:
when the sample database is not in an open session the work happens
inside a session it opens and closes, and when the session is already
open the constructor trains directly; in both cases the resulting state
holds a trained registry. -/
theorem initEstimator_always_trains (sample full : RelDB) :
    ∃ st, initEstimator sample full =
        some (st, if sample.isOpen = false
          then [Event.sessionOpen, Event.trainPass, Event.sessionClose]
          else [Event.trainPass]) ∧
      st.registry.isSome = true := by
  have hcov : ∀ t ∈ sample.tables,
      (alookup (sample.tableId t) (buildTableDict sample full sample.tables [])).isSome
        = true := by
    intro t ht
    rw [alookup_isSome, mem_keys_buildTableDict]
    exact Or.inr ⟨t, ht, rfl⟩
  obtain ⟨reg, hr, _, _⟩ :=
    buildRegistry_spec sample (buildTableDict sample full sample.tables [])
      sample.tables [] hcov
  cases hop : sample.isOpen with
  | false =>
    refine ⟨{ table_dict := buildTableDict sample full sample.tables [],
              registry := some reg }, ?_, rfl⟩
    simp [initEstimator, hop, train, hr]
  | true =>
    refine ⟨{ table_dict := buildTableDict sample full sample.tables [],
              registry := some reg }, ?_, rfl⟩
    simp [initEstimator, hop, train, hr]

/-- One trip through the rate loop, started at the draw counter of global
iteration `4 * t0`, produces exactly the four expected blocks of trial
`t0` and advances the counter to the start of trial `t0 + 1`. -/
theorem sweepRates_trial (use_cooc : Bool) (t0 : Nat) :
    sweepRates use_cooc rates (4 * t0 * drawsPerIter use_cooc) =
      (trialBlocks use_cooc t0, 4 * (t0 + 1) * drawsPerIter use_cooc) := by
  cases use_cooc <;>
    simp [sweepRates, iterAtRate, rates, trialBlocks, expectedBlock, drawsPerIter,
      Prod.ext_iff] <;>
    omega

/-- The trial loop, started at the draw counter of trial `t0`, produces
the expected blocks of trials `t0, t0 + 1, ...`. -/
theorem runTrials_closed (use_cooc : Bool) :
    ∀ (n t0 : Nat),
      runTrials use_cooc n (4 * t0 * drawsPerIter use_cooc) =
        ((List.range' t0 n).map (trialBlocks use_cooc)).flatten := by
  intro n
  induction n with
  | zero => intro t0; rfl
  | succ n ih =>
    intro t0
    rw [show List.range' t0 (n + 1) = t0 :: List.range' (t0 + 1) n from rfl]
    rw [List.map_cons, List.flatten_cons]
    rw [← ih (t0 + 1)]
    rw [show runTrials use_cooc (n + 1) (4 * t0 * drawsPerIter use_cooc) =
        (sweepRates use_cooc rates (4 * t0 * drawsPerIter use_cooc)).1 ++
          runTrials use_cooc n
            (sweepRates use_cooc rates (4 * t0 * drawsPerIter use_cooc)).2 from rfl]
    rw [sweepRates_trial]

/-- C7: the evaluation sweep equals, per trial and rate in order, one
block in which a single fresh sample draw and a single fresh workload
draw are shared by the SAMPLING, KDE and NARU records — iteration `i`
uses sample draw `i * drawsPerIter` and the workload draws strictly
between it and the next iteration's sample draw, so every iteration draws
its sample and workload exactly once before the next rate is processed. -/
theorem run_rlen_eval_shared_draws (nr_of_evals : Nat) (use_cooc : Bool) :
    run_rlen_eval nr_of_evals use_cooc =
      ((List.range nr_of_evals).map (trialBlocks use_cooc)).flatten := by
  have h := runTrials_closed use_cooc nr_of_evals 0
  simpa [run_rlen_eval, List.range_eq_range'] using h

end Leaker
